import Mathlib

/-!
Verification development for the `tetris-cli` timed-input components
(`src/turn_timer/turn_timer.rs` and `src/ui.rs`).

The Rust code is shallowly embedded as pure Lean functions:
* an mpsc channel is modelled as a FIFO queue (`List TimerStatus`): a send
  appends at the back, a non-blocking `try_recv` takes the front element
  (or fails when the queue is empty);
* `TurnTimerSubscriber` is a record of the cached status and the optional
  attached receiver queue; `update` and `get_timer_status` follow the Rust
  method bodies line by line, returning the new record where Rust mutates
  through `&mut self`;
* `run_user_input_loop` is embedded as a fuel-indexed recursion over three
  oracle streams (the successive results of `get_timer_status`,
  `get_command`, and the success of each dispatch send), recording the
  commands passed to `command_dispatcher.send` and the console output.
-/

/-- The `TimerStatus` enum from `turn_timer.rs`. -/
inductive TimerStatus where
  | TimerNotComplete
  | TimerComplete
deriving DecidableEq, Repr

/-- Non-blocking receive on an mpsc receiver modelled as a FIFO queue:
`Ok(front)` when a message is queued, failure (`Err`) when empty; a received
message is removed from the queue. -/
def tryRecv (q : List TimerStatus) : Option TimerStatus × List TimerStatus :=
  match q with
  | [] => (none, [])
  | m :: rest => (some m, rest)

/-- The `TurnTimerSubscriber` struct from `turn_timer.rs`: a cached status and at most
one attached receiver (its pending-message queue). -/
structure TurnTimerSubscriber where
  timer_status : TimerStatus
  subscription : Option (List TimerStatus)
deriving DecidableEq, Repr

namespace TurnTimerSubscriber

/-- Constructor `TurnTimerSubscriber::new`. -/
def new : TurnTimerSubscriber :=
  { timer_status := TimerStatus.TimerNotComplete, subscription := none }

/-- Method `Subscriber::add_subscription` for `TurnTimerSubscriber`: attaches a
receiver, overwriting any previous one. -/
def add_subscription (s : TurnTimerSubscriber) (q : List TimerStatus) :
    TurnTimerSubscriber :=
  { s with subscription := some q }

/-- Method `Subscriber::update` for `TurnTimerSubscriber`: if a receiver is
attached, one `try_recv`; only a received `TimerComplete` sets the cache. -/
def update (s : TurnTimerSubscriber) : TurnTimerSubscriber :=
  match s.subscription with
  | none => s
  | some q =>
    match tryRecv q with
    | (some TimerStatus.TimerComplete, rest) =>
      { timer_status := TimerStatus.TimerComplete, subscription := some rest }
    | (some TimerStatus.TimerNotComplete, rest) =>
      { s with subscription := some rest }
    | (none, rest) =>
      { s with subscription := some rest }

/-- Method `TurnTimerSubscriber::get_timer_status`: return the cached status
immediately when it is `TimerComplete`; otherwise `update` then return the
(possibly refreshed) cache.  Returns the status together with the
post-state (Rust mutates `&mut self`). -/
def get_timer_status (s : TurnTimerSubscriber) :
    TimerStatus × TurnTimerSubscriber :=
  match s.timer_status with
  | TimerStatus.TimerComplete => (TimerStatus.TimerComplete, s)
  | TimerStatus.TimerNotComplete =>
    let s' := s.update
    (s'.timer_status, s')

end TurnTimerSubscriber

/-- One externally visible event in the life of a `TurnTimerSubscriber`:
either a message is delivered on its subscription channel (a send by the
timer thread, appended at the back of the receiver's queue), or the owner
calls `get_timer_status`. -/
inductive SubEvent where
  | arrive (m : TimerStatus)
  | poll
deriving DecidableEq, Repr

/-- Effect of a single event on the subscriber state. -/
def subStep (s : TurnTimerSubscriber) : SubEvent → TurnTimerSubscriber
  | SubEvent.arrive m =>
    { s with subscription := s.subscription.map (fun q => q ++ [m]) }
  | SubEvent.poll => (s.get_timer_status).2

/-- Run a sequence of events, collecting the status returned by each
`get_timer_status` call (`poll`), in order. -/
def runSub (s : TurnTimerSubscriber) : List SubEvent →
    TurnTimerSubscriber × List TimerStatus
  | [] => (s, [])
  | e :: es =>
    let s' := subStep s e
    let r := runSub s' es
    match e with
    | SubEvent.poll => (r.1, (s.get_timer_status).1 :: r.2)
    | SubEvent.arrive _ => r

/-- The `TurnTimer` struct from `turn_timer.rs`: a duration (whole seconds) and one
mpsc sender per subscriber; each sender is modelled by the queue of the
channel it feeds. -/
structure TurnTimer where
  timer_duration : Nat
  subscribers : List (List TimerStatus)
deriving DecidableEq, Repr

namespace TurnTimer

/-- Constructor `TurnTimer::new`: given duration, zero subscribers. -/
def new (timer_duration : Nat) : TurnTimer :=
  { timer_duration := timer_duration, subscribers := [] }

/-- Modelled from the spec: `Notifier::subscribe` lives in
`src/turn_timer/observer.rs`, which is not part of the provided sources.
Per §4.1 it "creates a fresh channel pair, retains the sender internally,
and returns the receiver": the timer gains one more sender whose channel
starts empty, and the fresh (empty) receiver queue is handed back. -/
def subscribe (t : TurnTimer) : TurnTimer × List TimerStatus :=
  ({ t with subscribers := t.subscribers ++ [[]] }, [])

/-- Modelled from the spec: `Notifier::notify` lives in
`src/turn_timer/observer.rs`, which is not part of the provided sources.
Per §4.1 it "sends `value` to every retained sender; a failed send
(receiver already dropped) is swallowed": every subscriber channel gets the
value appended. -/
def notify (t : TurnTimer) (v : TimerStatus) : TurnTimer :=
  { t with subscribers := t.subscribers.map (fun q => q ++ [v]) }

end TurnTimer

/-- One action performed by the execution context that `run_timer` spawns. -/
inductive TimerAction where
  | sleep (secs : Nat)
  | notify (v : TimerStatus)
deriving DecidableEq, Repr

/-- Method `TurnTimer::run_timer`: consumes the timer (`self` by value) and spawns
a context that sleeps for the configured duration and then notifies
`TimerComplete`; the context then terminates.  Embedded as the finite
trace of actions that the spawned context performs over its lifetime. -/
def TurnTimer.run_timer (t : TurnTimer) : List TimerAction :=
  [TimerAction.sleep t.timer_duration,
   TimerAction.notify TimerStatus.TimerComplete]

/-- Contents of every subscriber channel after the trace of a spawned timer
context has been executed against the timer's senders. -/
def runTimerActions (t : TurnTimer) : List TimerAction → TurnTimer
  | [] => t
  | TimerAction.sleep _ :: rest => runTimerActions t rest
  | TimerAction.notify v :: rest => runTimerActions (t.notify v) rest

/-- The `MoveCommand` enum from `ui.rs`. -/
inductive MoveCommand where
  | Left
  | Down
  | Right
  | Clockwise
  | Anticlockwise
deriving DecidableEq, Repr

/-- The result of one `CommandCollector::get_command` call:
`Result<Option<MoveCommand>, ()>` in the Rust trait. -/
abbrev CollectorResult := Except Unit (Option MoveCommand)

/-- Terminal state of `run_user_input_loop`: the two `return` sites. -/
inductive LoopExit where
  | timerComplete
  | invalidInput
deriving DecidableEq, Repr

/-- Console output of `run_user_input_loop`, in emission order. -/
inductive LogEvent where
  | printCommand (c : MoveCommand)
  | sendError
  | timerCompleteNotice
  | invalidNotice
deriving DecidableEq, Repr

/-- The environment `run_user_input_loop` runs against, as oracle streams:
`status i` is the result of the `(i+1)`-th `get_timer_status` call,
`cmd j` the result of the `(j+1)`-th `get_command` call, and `sendOk k`
whether the `(k+1)`-th `command_dispatcher.send` succeeds (the receiver is
still connected). -/
structure LoopEnv where
  status : Nat → TimerStatus
  cmd : Nat → CollectorResult
  sendOk : Nat → Bool

/-- Observable outcome of a terminating run of `run_user_input_loop`. -/
structure LoopResult where
  exit : LoopExit
  sent : List MoveCommand
  log : List LogEvent
  statusCalls : Nat
  cmdCalls : Nat
  sendCalls : Nat
deriving DecidableEq, Repr

/-- Function `run_user_input_loop` from `ui.rs`, fuel-indexed (the Rust loop need
not terminate; `none` means it has not returned within `fuel` iterations).
Counters `i`, `j`, `k` index the oracle streams; `sent` accumulates the
commands passed to `command_dispatcher.send`, `log` the console output. -/
def runLoop (env : LoopEnv) : Nat → Nat → Nat → Nat →
    List MoveCommand → List LogEvent → Option LoopResult
  | 0, _, _, _, _, _ => none
  | fuel + 1, i, j, k, sent, log =>
    match env.status i with
    | TimerStatus.TimerComplete =>
      some { exit := LoopExit.timerComplete, sent := sent,
             log := log ++ [LogEvent.timerCompleteNotice],
             statusCalls := i + 1, cmdCalls := j, sendCalls := k }
    | TimerStatus.TimerNotComplete =>
      match env.cmd j with
      | Except.ok (some c) =>
        let log' := log ++ [LogEvent.printCommand c] ++
          (if env.sendOk k then [] else [LogEvent.sendError])
        runLoop env fuel (i + 1) (j + 1) (k + 1) (sent ++ [c]) log'
      | Except.ok none =>
        runLoop env fuel (i + 1) (j + 1) k sent log
      | Except.error _ =>
        some { exit := LoopExit.invalidInput, sent := sent,
               log := log ++ [LogEvent.invalidNotice],
               statusCalls := i + 1, cmdCalls := j + 1, sendCalls := k }

/-- A full run of `run_user_input_loop` from its entry point. -/
def runUserInputLoop (env : LoopEnv) (fuel : Nat) : Option LoopResult :=
  runLoop env fuel 0 0 0 [] []

/-- The commands among the `get_command` results `cmd j, cmd (j+1), ...,
cmd (j+n-1)` for which the collector returned `Ok(Some _)`, in order. -/
def okCmds (cmd : Nat → CollectorResult) : Nat → Nat → List MoveCommand
  | _, 0 => []
  | j, n + 1 =>
    match cmd j with
    | Except.ok (some c) => c :: okCmds cmd (j + 1) n
    | _ => okCmds cmd (j + 1) n

/-- Projection of a loop outcome to everything except the console log:
terminal state, dispatched commands, and how many `get_timer_status`,
`get_command` and `send` calls were made. -/
def loopObs (r : Option LoopResult) :
    Option (LoopExit × List MoveCommand × Nat × Nat × Nat) :=
  r.map (fun x => (x.exit, x.sent, x.statusCalls, x.cmdCalls, x.sendCalls))

/-! ### Basic lemmas about the subscriber -/

theorem runSub_nil (s : TurnTimerSubscriber) : runSub s [] = (s, []) := rfl

theorem runSub_cons_arrive (s : TurnTimerSubscriber) (m : TimerStatus)
    (es : List SubEvent) :
    runSub s (SubEvent.arrive m :: es) =
      runSub (subStep s (SubEvent.arrive m)) es := rfl

theorem runSub_cons_poll (s : TurnTimerSubscriber) (es : List SubEvent) :
    runSub s (SubEvent.poll :: es) =
      ((runSub (subStep s SubEvent.poll) es).1,
       (s.get_timer_status).1 :: (runSub (subStep s SubEvent.poll) es).2) := rfl

theorem get_fst_eq_snd_status (s : TurnTimerSubscriber) :
    (s.get_timer_status).1 = (s.get_timer_status).2.timer_status := by
  rcases s with ⟨st, sub⟩
  cases st <;> simp [TurnTimerSubscriber.get_timer_status]

theorem get_of_complete (s : TurnTimerSubscriber)
    (h : s.timer_status = TimerStatus.TimerComplete) :
    s.get_timer_status = (TimerStatus.TimerComplete, s) := by
  rcases s with ⟨st, sub⟩
  cases st with
  | TimerNotComplete => simp at h
  | TimerComplete => rfl

theorem subStep_status_mono (s : TurnTimerSubscriber)
    (h : s.timer_status = TimerStatus.TimerComplete) (e : SubEvent) :
    (subStep s e).timer_status = TimerStatus.TimerComplete := by
  cases e with
  | arrive m => simpa [subStep] using h
  | poll => simp [subStep, get_of_complete s h]; exact h

theorem runSub_of_complete (es : List SubEvent) :
    ∀ s : TurnTimerSubscriber,
      s.timer_status = TimerStatus.TimerComplete →
      ∀ x ∈ (runSub s es).2, x = TimerStatus.TimerComplete := by
  induction es with
  | nil => intro s _ x hx; simp [runSub_nil] at hx
  | cons e es ih =>
    intro s h x hx
    cases e with
    | arrive m =>
      rw [runSub_cons_arrive] at hx
      exact ih _ (subStep_status_mono s h _) x hx
    | poll =>
      rw [runSub_cons_poll] at hx
      rcases List.mem_cons.mp hx with h1 | h2
      · rw [h1, get_of_complete s h]
      · exact ih _ (subStep_status_mono s h SubEvent.poll) x h2

/-! ### Claims about `get_timer_status` and `update` (C8, C9, C10, C1) -/

/-- C8: for every `TurnTimerSubscriber` whose cached status is already
`TimerComplete`, `get_timer_status` returns `TimerComplete` and leaves the
whole subscriber state — in particular the subscription queue, so no
receive is performed — unchanged. -/
theorem get_timer_status_memoized_frame (s : TurnTimerSubscriber)
    (h : s.timer_status = TimerStatus.TimerComplete) :
    s.get_timer_status = (TimerStatus.TimerComplete, s) :=
  get_of_complete s h

theorem get_timer_status_memoized_frame_witness :
    TurnTimerSubscriber.get_timer_status
        { timer_status := TimerStatus.TimerComplete,
          subscription := some [TimerStatus.TimerComplete] }
      = (TimerStatus.TimerComplete,
         { timer_status := TimerStatus.TimerComplete,
           subscription := some [TimerStatus.TimerComplete] }) :=
  get_timer_status_memoized_frame
    { timer_status := TimerStatus.TimerComplete,
      subscription := some [TimerStatus.TimerComplete] } rfl

/-- C9: for every `TurnTimerSubscriber` whose cached status is
`TimerNotComplete`, if no receiver is attached or the attached receiver has
no pending message, `get_timer_status` returns `TimerNotComplete` (and the
state is unchanged). -/
theorem get_timer_status_no_message (s : TurnTimerSubscriber)
    (h : s.timer_status = TimerStatus.TimerNotComplete)
    (hq : s.subscription = none ∨ s.subscription = some []) :
    s.get_timer_status = (TimerStatus.TimerNotComplete, s) := by
  rcases s with ⟨st, sub⟩
  simp only at h
  subst h
  rcases hq with hq | hq <;> simp only at hq <;> subst hq <;> rfl

theorem get_timer_status_no_message_witness :
    TurnTimerSubscriber.get_timer_status
        { timer_status := TimerStatus.TimerNotComplete,
          subscription := some [] }
      = (TimerStatus.TimerNotComplete,
         { timer_status := TimerStatus.TimerNotComplete,
           subscription := some [] }) :=
  get_timer_status_no_message
    { timer_status := TimerStatus.TimerNotComplete, subscription := some [] }
    rfl (Or.inr rfl)

/-- C10: `update` performs at most one non-blocking receive: with no
attached receiver, or an attached receiver with an empty queue, the state
is unchanged; with a pending front message `m`, exactly `m` is consumed
from the queue (whatever its value), and the cached status becomes
`TimerComplete` exactly when `m` is `TimerComplete`, otherwise it is left
unchanged. -/
theorem update_single_recv (s : TurnTimerSubscriber) :
    (s.subscription = none → s.update = s) ∧
    (s.subscription = some [] → s.update = s) ∧
    (∀ (m : TimerStatus) (rest : List TimerStatus),
      s.subscription = some (m :: rest) →
      (s.update).subscription = some rest ∧
      (s.update).timer_status =
        (if m = TimerStatus.TimerComplete then TimerStatus.TimerComplete
         else s.timer_status)) := by
  rcases s with ⟨st, sub⟩
  refine ⟨?_, ?_, ?_⟩
  · intro h; simp only at h; subst h; rfl
  · intro h; simp only at h; subst h; rfl
  · intro m rest h
    simp only at h
    subst h
    cases m <;> cases st <;>
      simp [TurnTimerSubscriber.update, tryRecv]

theorem update_single_recv_witness :
    (TurnTimerSubscriber.update
        { timer_status := TimerStatus.TimerNotComplete,
          subscription :=
            some [TimerStatus.TimerNotComplete, TimerStatus.TimerComplete]
        }).subscription = some [TimerStatus.TimerComplete] ∧
    (TurnTimerSubscriber.update
        { timer_status := TimerStatus.TimerNotComplete,
          subscription :=
            some [TimerStatus.TimerNotComplete, TimerStatus.TimerComplete]
        }).timer_status =
      (if TimerStatus.TimerNotComplete = TimerStatus.TimerComplete
       then TimerStatus.TimerComplete else TimerStatus.TimerNotComplete) :=
  (update_single_recv
    { timer_status := TimerStatus.TimerNotComplete,
      subscription :=
        some [TimerStatus.TimerNotComplete, TimerStatus.TimerComplete] }).2.2
    TimerStatus.TimerNotComplete [TimerStatus.TimerComplete] rfl

/-- C1: the observed status of a `TurnTimerSubscriber` is monotonic over
any interleaving of channel deliveries and `get_timer_status` calls: if
some call returns `TimerComplete`, every later call in the run returns
`TimerComplete`. -/
theorem subscriber_status_monotonic (es : List SubEvent)
    (s : TurnTimerSubscriber) (pre suf : List TimerStatus)
    (h : (runSub s es).2 = pre ++ TimerStatus.TimerComplete :: suf) :
    ∀ x ∈ suf, x = TimerStatus.TimerComplete := by
  induction es generalizing s pre with
  | nil => simp [runSub_nil] at h
  | cons e es ih =>
    cases e with
    | arrive m =>
      rw [runSub_cons_arrive] at h
      exact ih _ _ h
    | poll =>
      rw [runSub_cons_poll] at h
      cases pre with
      | nil =>
        simp only [List.nil_append] at h
        have h1 : (s.get_timer_status).1 = TimerStatus.TimerComplete :=
          (List.cons.injEq _ _ _ _ ▸ h).1
        have h2 :
            (runSub (subStep s SubEvent.poll) es).2 = suf :=
          (List.cons.injEq _ _ _ _ ▸ h).2
        have hst : (subStep s SubEvent.poll).timer_status =
            TimerStatus.TimerComplete := by
          rw [subStep]
          rw [← get_fst_eq_snd_status]
          exact h1
        intro x hx
        exact runSub_of_complete es _ hst x (h2 ▸ hx)
      | cons p pre' =>
        simp only [List.cons_append] at h
        have h2 :
            (runSub (subStep s SubEvent.poll) es).2 =
              pre' ++ TimerStatus.TimerComplete :: suf :=
          (List.cons.injEq _ _ _ _ ▸ h).2
        exact ih _ _ h2

theorem subscriber_status_monotonic_witness :
    TimerStatus.TimerComplete = TimerStatus.TimerComplete :=
  subscriber_status_monotonic
    [SubEvent.arrive TimerStatus.TimerComplete, SubEvent.poll, SubEvent.poll]
    (TurnTimerSubscriber.new.add_subscription [])
    [] [TimerStatus.TimerComplete] (by decide)
    TimerStatus.TimerComplete (by decide)

/-! ### Completion is observed exactly when it was notified (C6) -/

theorem get_complete_iff (s : TurnTimerSubscriber) (q : List TimerStatus)
    (hq : s.subscription = some q)
    (hall : ∀ x ∈ q, x = TimerStatus.TimerComplete) :
    ((s.get_timer_status).1 = TimerStatus.TimerComplete ↔
      (s.timer_status = TimerStatus.TimerComplete ∨ q ≠ [])) := by
  rcases s with ⟨st, sub⟩
  simp only at hq
  subst hq
  cases st with
  | TimerComplete => simp [TurnTimerSubscriber.get_timer_status]
  | TimerNotComplete =>
    cases q with
    | nil => simp [TurnTimerSubscriber.get_timer_status,
        TurnTimerSubscriber.update, tryRecv]
    | cons m rest =>
      have hm : m = TimerStatus.TimerComplete := hall m (by simp)
      subst hm
      simp [TurnTimerSubscriber.get_timer_status,
        TurnTimerSubscriber.update, tryRecv]

theorem poll_preserves (s : TurnTimerSubscriber) (q : List TimerStatus)
    (hq : s.subscription = some q)
    (hall : ∀ x ∈ q, x = TimerStatus.TimerComplete) :
    ∃ q', (s.get_timer_status).2.subscription = some q' ∧
      (∀ x ∈ q', x = TimerStatus.TimerComplete) ∧
      (((s.get_timer_status).2.timer_status = TimerStatus.TimerComplete ∨
          q' ≠ []) ↔
        (s.timer_status = TimerStatus.TimerComplete ∨ q ≠ [])) := by
  rcases s with ⟨st, sub⟩
  simp only at hq
  subst hq
  cases st with
  | TimerComplete =>
    exact ⟨q, rfl, hall, by simp [TurnTimerSubscriber.get_timer_status]⟩
  | TimerNotComplete =>
    cases q with
    | nil =>
      refine ⟨[], rfl, by simp, by
        simp [TurnTimerSubscriber.get_timer_status,
          TurnTimerSubscriber.update, tryRecv]⟩
    | cons m rest =>
      have hm : m = TimerStatus.TimerComplete := hall m (by simp)
      subst hm
      refine ⟨rest, rfl, fun x hx => hall x (by simp [hx]), ?_⟩
      simp [TurnTimerSubscriber.get_timer_status,
        TurnTimerSubscriber.update, tryRecv]

theorem arrive_preserves (s : TurnTimerSubscriber) (q : List TimerStatus)
    (m : TimerStatus) (hq : s.subscription = some q) :
    (subStep s (SubEvent.arrive m)).subscription = some (q ++ [m]) ∧
    (subStep s (SubEvent.arrive m)).timer_status = s.timer_status := by
  rcases s with ⟨st, sub⟩
  simp only at hq
  subst hq
  exact ⟨rfl, rfl⟩

theorem runSub_state_inv (es : List SubEvent)
    (hall : ∀ m, SubEvent.arrive m ∈ es → m = TimerStatus.TimerComplete) :
    ∀ (s : TurnTimerSubscriber) (q : List TimerStatus),
      s.subscription = some q →
      (∀ x ∈ q, x = TimerStatus.TimerComplete) →
      ∃ q', (runSub s es).1.subscription = some q' ∧
        (∀ x ∈ q', x = TimerStatus.TimerComplete) ∧
        (((runSub s es).1.timer_status = TimerStatus.TimerComplete ∨
            q' ≠ []) ↔
          (s.timer_status = TimerStatus.TimerComplete ∨ q ≠ [] ∨
            ∃ m, SubEvent.arrive m ∈ es)) := by
  induction es with
  | nil =>
    intro s q hq hql
    refine ⟨q, by simp [runSub_nil, hq], hql, by simp [runSub_nil]⟩
  | cons e es ih =>
    intro s q hq hql
    have hall' : ∀ m, SubEvent.arrive m ∈ es → m = TimerStatus.TimerComplete :=
      fun m hm => hall m (List.mem_cons_of_mem _ hm)
    cases e with
    | arrive m =>
      have hm : m = TimerStatus.TimerComplete := hall m (by simp)
      subst hm
      obtain ⟨h1, h2⟩ := arrive_preserves s q TimerStatus.TimerComplete hq
      obtain ⟨q', hq', hall'', hiff⟩ :=
        ih hall' (subStep s (SubEvent.arrive TimerStatus.TimerComplete))
          (q ++ [TimerStatus.TimerComplete]) h1
          (by
            intro x hx
            rcases List.mem_append.mp hx with hx | hx
            · exact hql x hx
            · simpa using hx)
      refine ⟨q', by rw [runSub_cons_arrive]; exact hq',
        hall'', ?_⟩
      rw [runSub_cons_arrive]
      rw [hiff, h2]
      constructor
      · intro _
        exact Or.inr (Or.inr ⟨TimerStatus.TimerComplete, by simp⟩)
      · intro _
        exact Or.inr (by simp)
    | poll =>
      obtain ⟨q₁, hq₁, hall₁, hiff₁⟩ := poll_preserves s q hq hql
      obtain ⟨q', hq', hall'', hiff⟩ :=
        ih hall' (subStep s SubEvent.poll) q₁ hq₁ hall₁
      refine ⟨q', by rw [runSub_cons_poll]; exact hq', hall'', ?_⟩
      rw [runSub_cons_poll]
      simp only
      rw [hiff]
      constructor
      · rintro (h | h | ⟨m, hm⟩)
        · rcases hiff₁.mp (Or.inl h) with h' | h'
          · exact Or.inl h'
          · exact Or.inr (Or.inl h')
        · rcases hiff₁.mp (Or.inr h) with h' | h'
          · exact Or.inl h'
          · exact Or.inr (Or.inl h')
        · exact Or.inr (Or.inr ⟨m, List.mem_cons_of_mem _ hm⟩)
      · rintro (h | h | ⟨m, hm⟩)
        · rcases hiff₁.mpr (Or.inl h) with h' | h'
          · exact Or.inl h'
          · exact Or.inr (Or.inl h')
        · rcases hiff₁.mpr (Or.inr h) with h' | h'
          · exact Or.inl h'
          · exact Or.inr (Or.inl h')
        · rcases List.mem_cons.mp hm with hcon | hm'
          · cases hcon
          · exact Or.inr (Or.inr ⟨m, hm'⟩)

/-- C6: starting from a freshly constructed subscriber wired to a fresh
channel, and for any interleaving of deliveries and calls in which every
delivered message is `TimerComplete` (the only message a `TurnTimer` ever
sends), a `get_timer_status` call returns `TimerComplete` exactly when at
least one `TimerComplete` message was delivered before the call (or,
equivalently, some earlier call already returned it): no false positive,
and completion is observed at the first call after delivery. -/
theorem subscriber_complete_iff_notified (es : List SubEvent)
    (hall : ∀ m, SubEvent.arrive m ∈ es → m = TimerStatus.TimerComplete) :
    ((TurnTimerSubscriber.get_timer_status
          (runSub (TurnTimerSubscriber.new.add_subscription []) es).1).1
        = TimerStatus.TimerComplete
      ↔ ∃ m, SubEvent.arrive m ∈ es) := by
  obtain ⟨q', hq', hall', hiff⟩ :=
    runSub_state_inv es hall (TurnTimerSubscriber.new.add_subscription [])
      [] rfl (by simp)
  rw [get_complete_iff _ q' hq' hall', hiff]
  simp [TurnTimerSubscriber.new, TurnTimerSubscriber.add_subscription]

theorem subscriber_complete_iff_notified_witness :
    ((TurnTimerSubscriber.get_timer_status
          (runSub (TurnTimerSubscriber.new.add_subscription [])
            [SubEvent.arrive TimerStatus.TimerComplete, SubEvent.poll]).1).1
        = TimerStatus.TimerComplete
      ↔ ∃ m, SubEvent.arrive m ∈
          [SubEvent.arrive TimerStatus.TimerComplete, SubEvent.poll]) :=
  subscriber_complete_iff_notified
    [SubEvent.arrive TimerStatus.TimerComplete, SubEvent.poll]
    (by intro m hm; simpa using hm)

/-! ### The timer fires exactly once (C7) -/

/-- Iterated subscription: a timer with `n` subscriptions taken before it
is started (the subscribe-before-start discipline of `main`). -/
def subscribeN (t : TurnTimer) : Nat → TurnTimer
  | 0 => t
  | n + 1 => ((subscribeN t n).subscribe).1

theorem subscribeN_subscribers (d n : Nat) :
    (subscribeN (TurnTimer.new d) n).subscribers = List.replicate n [] := by
  induction n with
  | zero => rfl
  | succ n ih =>
    simp [subscribeN, TurnTimer.subscribe, ih, List.replicate_succ']

theorem subscribeN_duration (t : TurnTimer) (n : Nat) :
    (subscribeN t n).timer_duration = t.timer_duration := by
  induction n with
  | zero => rfl
  | succ n ih => simp [subscribeN, TurnTimer.subscribe, ih]

/-- C7: for a timer with any duration and any number of subscriptions
taken before start, the context spawned by `run_timer` performs exactly one
sleep of the full configured duration followed by exactly one
`notify(TimerComplete)` and nothing else; executing that trace leaves
exactly one `TimerComplete` message in every subscriber's channel — at
most one notification per subscriber over the timer's lifetime, and no
re-firing. -/
theorem run_timer_single_notification (d n : Nat) :
    (subscribeN (TurnTimer.new d) n).run_timer
      = [TimerAction.sleep d,
         TimerAction.notify TimerStatus.TimerComplete] ∧
    (runTimerActions (subscribeN (TurnTimer.new d) n)
        ((subscribeN (TurnTimer.new d) n).run_timer)).subscribers
      = List.replicate n [TimerStatus.TimerComplete] := by
  have hdur := subscribeN_duration (TurnTimer.new d) n
  have hsub := subscribeN_subscribers d n
  constructor
  · rw [TurnTimer.run_timer, hdur]; rfl
  · rw [TurnTimer.run_timer]
    simp [runTimerActions, TurnTimer.notify, hsub, List.map_replicate]

/-! ### Input-collection loop claims (C2, C3, C4, C5) -/

theorem runLoop_sent_spec (env : LoopEnv) :
    ∀ (fuel i j k : Nat) (sent : List MoveCommand) (log : List LogEvent)
      (r : LoopResult),
      runLoop env fuel i j k sent log = some r →
      j ≤ r.cmdCalls ∧ r.sent = sent ++ okCmds env.cmd j (r.cmdCalls - j) := by
  intro fuel
  induction fuel with
  | zero => intro i j k sent log r h; simp [runLoop] at h
  | succ fuel ih =>
    intro i j k sent log r h
    cases hsi : env.status i with
    | TimerComplete =>
      simp only [runLoop, hsi, Option.some.injEq] at h
      subst h
      simp [okCmds]
    | TimerNotComplete =>
      cases hcj : env.cmd j with
      | ok o =>
        cases o with
        | some c =>
          simp only [runLoop, hsi, hcj] at h
          obtain ⟨hle, hsent⟩ := ih _ _ _ _ _ _ h
          refine ⟨by omega, ?_⟩
          have hn : r.cmdCalls - j = (r.cmdCalls - (j + 1)) + 1 := by omega
          rw [hn, okCmds, hcj, hsent]
          simp
        | none =>
          simp only [runLoop, hsi, hcj] at h
          obtain ⟨hle, hsent⟩ := ih _ _ _ _ _ _ h
          refine ⟨by omega, ?_⟩
          have hn : r.cmdCalls - j = (r.cmdCalls - (j + 1)) + 1 := by omega
          rw [hn, okCmds, hcj, hsent]
      | error e =>
        cases e
        simp only [runLoop, hsi, hcj, Option.some.injEq] at h
        subst h
        simp [okCmds, hcj]

/-- C2: for every terminating run of `run_user_input_loop`, the sequence
of commands passed to `command_dispatcher.send` is exactly the subsequence
of `Ok(Some _)` results among the `get_command` calls the run consumed, in
the order the collector produced them — each such command is dispatched
exactly once. -/
theorem loop_forwards_commands_in_order (env : LoopEnv) (fuel : Nat)
    (r : LoopResult) (h : runUserInputLoop env fuel = some r) :
    r.sent = okCmds env.cmd 0 r.cmdCalls := by
  have hspec := runLoop_sent_spec env fuel 0 0 0 [] [] r h
  simpa using hspec.2

theorem loop_forwards_commands_in_order_witness :
    [MoveCommand.Down] =
      okCmds (fun j => if j = 0 then Except.ok (some MoveCommand.Down)
                       else Except.ok none) 0 2 :=
  loop_forwards_commands_in_order
    { status := fun i => if i < 2 then TimerStatus.TimerNotComplete
                         else TimerStatus.TimerComplete,
      cmd := fun j => if j = 0 then Except.ok (some MoveCommand.Down)
                      else Except.ok none,
      sendOk := fun _ => true }
    5
    { exit := LoopExit.timerComplete, sent := [MoveCommand.Down],
      log := [LogEvent.printCommand MoveCommand.Down,
              LogEvent.timerCompleteNotice],
      statusCalls := 3, cmdCalls := 2, sendCalls := 1 }
    (by rfl)

/-- C3: whenever an iteration of `run_user_input_loop` observes
`TimerComplete`, the loop prints the completion notice and returns at
once: the collector is not queried on that iteration or ever again (the
final `get_command` count equals the count before the iteration), no
further status checks happen, and nothing more is dispatched.  With
`i = j = k = 0` and `sent = []` this is the first-check case: the loop
exits with zero forwarded commands and the collector never queried. -/
theorem loop_exits_on_timer_complete (env : LoopEnv) (fuel i j k : Nat)
    (sent : List MoveCommand) (log : List LogEvent)
    (h : env.status i = TimerStatus.TimerComplete) :
    runLoop env (fuel + 1) i j k sent log =
      some { exit := LoopExit.timerComplete, sent := sent,
             log := log ++ [LogEvent.timerCompleteNotice],
             statusCalls := i + 1, cmdCalls := j, sendCalls := k } := by
  simp [runLoop, h]

theorem loop_exits_on_timer_complete_witness :
    runLoop { status := fun _ => TimerStatus.TimerComplete,
              cmd := fun _ => Except.ok none,
              sendOk := fun _ => true } 1 0 0 0 [] [] =
      some { exit := LoopExit.timerComplete, sent := [],
             log := [] ++ [LogEvent.timerCompleteNotice],
             statusCalls := 1, cmdCalls := 0, sendCalls := 0 } :=
  loop_exits_on_timer_complete
    { status := fun _ => TimerStatus.TimerComplete,
      cmd := fun _ => Except.ok none,
      sendOk := fun _ => true } 0 0 0 0 [] [] rfl

/-- C4: whenever an iteration observes `TimerNotComplete` and the
collector reports invalid input (`Err`), the loop prints the invalid-input
notice and returns at once: exactly one more status check and one more
`get_command` happened, and no send occurs after (or for) the invalid
input. -/
theorem loop_exits_on_invalid_input (env : LoopEnv) (fuel i j k : Nat)
    (sent : List MoveCommand) (log : List LogEvent)
    (h1 : env.status i = TimerStatus.TimerNotComplete)
    (h2 : env.cmd j = Except.error ()) :
    runLoop env (fuel + 1) i j k sent log =
      some { exit := LoopExit.invalidInput, sent := sent,
             log := log ++ [LogEvent.invalidNotice],
             statusCalls := i + 1, cmdCalls := j + 1, sendCalls := k } := by
  simp [runLoop, h1, h2]

theorem loop_exits_on_invalid_input_witness :
    runLoop { status := fun _ => TimerStatus.TimerNotComplete,
              cmd := fun _ => Except.error (),
              sendOk := fun _ => true } 1 0 0 0 [] [] =
      some { exit := LoopExit.invalidInput, sent := [],
             log := [] ++ [LogEvent.invalidNotice],
             statusCalls := 1, cmdCalls := 1, sendCalls := 0 } :=
  loop_exits_on_invalid_input
    { status := fun _ => TimerStatus.TimerNotComplete,
      cmd := fun _ => Except.error (),
      sendOk := fun _ => true } 0 0 0 0 [] [] rfl rfl

theorem runLoop_obs_indep (env env' : LoopEnv)
    (hstat : env.status = env'.status) (hcmd : env.cmd = env'.cmd) :
    ∀ (fuel i j k : Nat) (sent : List MoveCommand)
      (log log' : List LogEvent),
      loopObs (runLoop env fuel i j k sent log) =
        loopObs (runLoop env' fuel i j k sent log') := by
  intro fuel
  induction fuel with
  | zero => intro i j k sent log log'; rfl
  | succ fuel ih =>
    intro i j k sent log log'
    have hsi' : env'.status i = env.status i := by rw [hstat]
    have hcj' : env'.cmd j = env.cmd j := by rw [hcmd]
    cases hsi : env.status i with
    | TimerComplete =>
      rw [hsi] at hsi'
      simp [runLoop, hsi, hsi', loopObs]
    | TimerNotComplete =>
      rw [hsi] at hsi'
      cases hcj : env.cmd j with
      | ok o =>
        rw [hcj] at hcj'
        cases o with
        | some c =>
          simp only [runLoop, hsi, hsi', hcj, hcj']
          exact ih _ _ _ _ _ _
        | none =>
          simp only [runLoop, hsi, hsi', hcj, hcj']
          exact ih _ _ _ _ _ _
      | error e =>
        cases e
        rw [hcj] at hcj'
        simp [runLoop, hsi, hsi', hcj, hcj', loopObs]

/-- C5: a failed dispatch send is reported (the send-error line appears in
the output right after the command echo) and is never fatal: the iteration
with the failed send continues to the next iteration exactly as a
successful send would, and — for any two environments that agree on timer
statuses and collector results but differ arbitrarily in send outcomes —
the terminal state, the dispatched-command sequence and all call counts of
the run are identical. -/
theorem send_failure_nonfatal (env : LoopEnv) (fuel i j k : Nat)
    (sent : List MoveCommand) (log : List LogEvent) (c : MoveCommand) :
    (env.status i = TimerStatus.TimerNotComplete →
      env.cmd j = Except.ok (some c) →
      env.sendOk k = false →
      runLoop env (fuel + 1) i j k sent log =
        runLoop env fuel (i + 1) (j + 1) (k + 1) (sent ++ [c])
          (log ++ [LogEvent.printCommand c, LogEvent.sendError])) ∧
    (∀ (env' : LoopEnv) (log' : List LogEvent),
      env.status = env'.status → env.cmd = env'.cmd →
      loopObs (runLoop env (fuel + 1) i j k sent log) =
        loopObs (runLoop env' (fuel + 1) i j k sent log')) := by
  constructor
  · intro h1 h2 h3
    simp [runLoop, h1, h2, h3]
  · intro env' log' hstat hcmd
    exact runLoop_obs_indep env env' hstat hcmd (fuel + 1) i j k sent log log'

/-- Scripted environment for the dropped-receiver scenario: one valid
command then an invalid input, every dispatch send failing. -/
def envSendFail : LoopEnv :=
  { status := fun _ => TimerStatus.TimerNotComplete,
    cmd := fun j => if j = 0 then Except.ok (some MoveCommand.Down)
                    else Except.error (),
    sendOk := fun _ => false }

/-- The same script with every dispatch send succeeding. -/
def envSendOkay : LoopEnv :=
  { status := envSendFail.status, cmd := envSendFail.cmd,
    sendOk := fun _ => true }

theorem send_failure_nonfatal_witness :
    (runLoop envSendFail 2 0 0 0 [] [] =
      runLoop envSendFail 1 1 1 1 [MoveCommand.Down]
        [LogEvent.printCommand MoveCommand.Down, LogEvent.sendError]) ∧
    loopObs (runLoop envSendFail 2 0 0 0 [] []) =
      loopObs (runLoop envSendOkay 2 0 0 0 [] []) := by
  have h := send_failure_nonfatal envSendFail 1 0 0 0 [] [] MoveCommand.Down
  refine ⟨?_, ?_⟩
  · have h1 := h.1 rfl rfl rfl
    simpa using h1
  · exact h.2 envSendOkay [] rfl rfl
